import Mathlib

/-!
Verification of the sympathetic-synth voice engine against its
natural-language specification.

The development shallowly embeds the TypeScript sources:
  - `src/lib/audio/audio-engine.ts` (note/MIDI/frequency conversion),
  - `src/lib/audio/envelope.ts` (the ADSR `Envelope` class),
  - `src/lib/audio/synth.ts` (the `Synth` voice allocator),
and the parameter-mutation call sites in `components/chat-panel.tsx` and
`components/synth-panel.tsx`.

Modelling conventions:
  - Times, levels and settings are rationals (the code uses doubles, but every
    constant and operation the claims mention is exact: `max`, `min`, `+`, `*`,
    division by powers of two).
  - Every frequency the conversion utilities produce has the exact form
    `440 * 2 ^ (k / 12)` for an integer `k` (semitones from A4); since
    `x ↦ 440 * 2 ^ (x / 12)` is injective, frequencies are represented by the
    exponent `k`, keeping all definitions executable.
  - Web Audio scheduling calls (`cancelScheduledValues`, `setValueAtTime`,
    `exponentialRampToValueAtTime`, `linearRampToValueAtTime`,
    `oscillator.start/stop`) are recorded as a trace of `AEvent` values; audio
    nodes and `AudioParam`s are identified by numeric ids allocated at voice
    creation.
  - The substrate inputs the code reads (`audioEngine.currentTime`, the live
    `param.value` read by `triggerRelease` and by the per-oscillator gain
    fades) are passed in explicitly: `currentTime` as a rational argument and
    a `paramValue : Nat → ℚ` oracle.
-/

namespace SymSynth

/-! ## Note-name and MIDI conversion (`audio-engine.ts`) -/

/-- Result of `AudioEngine.noteToFrequency`.  `warned = true` records that the
function hit one of its `console.warn` fallback branches and returned the
literal default 440.  `semisFromA4 = some k` means the function returned
`440 * 2 ^ (k / 12)`; `none` means it returned the literal default 440. -/
structure NoteLookup where
  warned : Bool
  semisFromA4 : Option Int
deriving DecidableEq, Repr

/-- The semitone table `notes` from `noteToFrequency` (17 entries). -/
def noteSemitoneTable : List (String × Nat) :=
  [("C", 0), ("C#", 1), ("Db", 1), ("D", 2), ("D#", 3), ("Eb", 3), ("E", 4),
   ("F", 5), ("F#", 6), ("Gb", 6), ("G", 7), ("G#", 8), ("Ab", 8), ("A", 9),
   ("A#", 10), ("Bb", 10), ("B", 11)]

/-- Association-list lookup with decidable string equality (the object-key
lookup `notes[noteName]`). -/
def lookupSemitone : List (String × Nat) → String → Option Nat
  | [], _ => none
  | (k, v) :: t, s => if k = s then some v else lookupSemitone t s

/-- The character class `[A-Ga-g]` of the regex in `noteToFrequency`. -/
def isNoteLetter (c : Char) : Bool :=
  ('A' ≤ c && c ≤ 'G') || ('a' ≤ c && c ≤ 'g')

/-- JS `parseInt(digits, 10)` on a string of decimal digits. -/
def digitsToNat (l : List Char) : Nat :=
  l.foldl (fun acc c => 10 * acc + (c.toNat - '0'.toNat)) 0

/-- Embeds `AudioEngine.noteToFrequency`, working on the character list of the
input.  The regex `^([A-Ga-g][#b]?)(\d+)$` is matched structurally: a leading
letter, an optional accidental (`#` or `b`), then one or more digits.  (The
regex cannot succeed through backtracking into an empty accidental when an
accidental character is present, because `#` and `b` are not digits, so this
non-backtracking parse is equivalent.)  On a match, the note name is rebuilt
as in the source (`match[1].charAt(0).toUpperCase() + match[1].slice(1)`) and
looked up in the semitone table; `semitonesFromA4 = semitone - 9 + (octave - 4) * 12`. -/
def noteToFrequencyChars : List Char → NoteLookup
  | [] => { warned := true, semisFromA4 := none }
  | c :: rest =>
    if isNoteLetter c then
      let acc : List Char := match rest with
        | c2 :: _ => if c2 = '#' || c2 = 'b' then [c2] else []
        | [] => []
      let digits : List Char := match rest with
        | c2 :: rest2 => if c2 = '#' || c2 = 'b' then rest2 else rest
        | [] => []
      if digits ≠ [] ∧ digits.all Char.isDigit then
        let noteName : String := String.mk (c.toUpper :: acc)
        let octave : Int := digitsToNat digits
        match lookupSemitone noteSemitoneTable noteName with
        | some semitone =>
          { warned := false,
            semisFromA4 := some ((semitone : Int) - 9 + (octave - 4) * 12) }
        | none => { warned := true, semisFromA4 := none }
      else { warned := true, semisFromA4 := none }
    else { warned := true, semisFromA4 := none }

/-- Embeds `AudioEngine.noteToFrequency` (string entry point). -/
def noteToFrequency (note : String) : NoteLookup :=
  noteToFrequencyChars note.toList

/-- The `noteNames` array of `AudioEngine.midiToNote` (the twelve chromatic
names from C upward, written here in three segments). -/
def midiNoteNames : List String :=
  ["C", "C#", "D", "D#"] ++ ["E", "F", "F#", "G"] ++ ["G#", "A", "A#", "B"]

/-- Embeds `AudioEngine.midiToNote`:
`noteNames[midiNote % 12] + (Math.floor(midiNote / 12) - 1)`. -/
def midiToNote (midiNote : Nat) : String :=
  (midiNoteNames.getD (midiNote % 12) "") ++ toString ((midiNote : Int) / 12 - 1)

/-- Embeds `AudioEngine.midiToFrequency`, which returns
`440 * Math.pow(2, (midiNote - 69) / 12)`; per the frequency representation
convention the result is the semitone exponent `midiNote - 69`. -/
def midiToFrequency (midiNote : Nat) : Int :=
  (midiNote : Int) - 69

/-- Transcribed from the spec (§6): the note grammar the claim states,
`[A-G](#|b)?[0-9]+` with a strictly upper-case letter.  This is the claim-side
definition that the source lookup is compared against. -/
def specNoteWellFormed (s : String) : Bool :=
  match s.toList with
  | [] => false
  | c :: rest =>
    let accidental : List Char := match rest with
      | c2 :: _ => if c2 = '#' || c2 = 'b' then [c2] else []
      | [] => []
    let digits : List Char := match rest with
      | c2 :: rest2 => if c2 = '#' || c2 = 'b' then rest2 else rest
      | [] => []
    decide ('A' ≤ c ∧ c ≤ 'G') && !digits.isEmpty && digits.all Char.isDigit &&
      (accidental = [] || accidental = ['#'] || accidental = ['b'])

/-- Acceptance condition of the source lookup, stated independently of the
parse: the character list splits as letter/accidental/digits with a
`[A-Ga-g]` letter, and the normalised name (upper-cased letter plus
accidental) is a key of the semitone table. -/
def codeAcceptsChars : List Char → Bool
  | [] => false
  | c :: rest =>
    let accidental : List Char := match rest with
      | c2 :: _ => if c2 = '#' || c2 = 'b' then [c2] else []
      | [] => []
    let digits : List Char := match rest with
      | c2 :: rest2 => if c2 = '#' || c2 = 'b' then rest2 else rest
      | [] => []
    isNoteLetter c && !digits.isEmpty && digits.all Char.isDigit &&
      decide (String.mk (c.toUpper :: accidental) ∈ noteSemitoneTable.map Prod.fst)

/-- Acceptance condition of the source lookup on strings. -/
def codeAcceptsNote (s : String) : Bool :=
  codeAcceptsChars s.toList

/-! ## Range multiplier (`Synth.rangeToFrequency`) -/

/-- Embeds `Synth.rangeToFrequency`: the `switch` on `range`, including the
`case 64` branch and the `default` branch (which covers range 8). -/
def rangeToFrequency (baseFrequency : ℚ) (range : Nat) : ℚ :=
  match range with
  | 2 => baseFrequency * 4
  | 4 => baseFrequency * 2
  | 16 => baseFrequency / 2
  | 32 => baseFrequency / 4
  | 64 => baseFrequency / 8
  | _ => baseFrequency

/-! ## ADSR envelope (`envelope.ts`) -/

/-- State of one `Envelope` instance: the six numeric fields of the class, the
connected target (`param`, an `AudioParam` id, `none` until `connect` is
called) and `releaseStartTime`. -/
structure Envelope where
  attack : ℚ
  decay : ℚ
  sustain : ℚ
  release : ℚ
  startLevel : ℚ
  maxLevel : ℚ
  param : Option Nat
  releaseStartTime : ℚ
deriving DecidableEq, Repr

/-- One time-stamped instruction issued against the audio substrate.  The
first four constructors are the `AudioParam` scheduling calls
(`cancelScheduledValues`, `setValueAtTime`, `exponentialRampToValueAtTime`,
`linearRampToValueAtTime`); `oscStart`/`oscStop` are `OscillatorNode`
start/stop calls; the two creation records log the `new Envelope(...)`
constructions of `playNote` together with the constructed instance. -/
inductive AEvent where
  | cancel (p : Nat) (t : ℚ)
  | setValue (p : Nat) (v t : ℚ)
  | expRamp (p : Nat) (v t : ℚ)
  | linRamp (p : Nat) (v t : ℚ)
  | oscStart (o : Nat) (t : ℚ)
  | oscStop (o : Nat) (t : ℚ)
  | envCreatedVol (e : Envelope)
  | envCreatedFilt (e : Envelope)
deriving DecidableEq, Repr

/-- Embeds `Envelope.connect(param)`. -/
def Envelope.connect (e : Envelope) (p : Nat) : Envelope :=
  { e with param := some p }

/-- Embeds `Envelope.update(options)`: the six optional fields. -/
structure EnvUpdate where
  attack : Option ℚ := none
  decay : Option ℚ := none
  sustain : Option ℚ := none
  release : Option ℚ := none
  startLevel : Option ℚ := none
  maxLevel : Option ℚ := none

/-- Embeds `Envelope.update(options)`. -/
def Envelope.update (e : Envelope) (u : EnvUpdate) : Envelope :=
  { e with
    attack := u.attack.getD e.attack
    decay := u.decay.getD e.decay
    sustain := u.sustain.getD e.sustain
    release := u.release.getD e.release
    startLevel := u.startLevel.getD e.startLevel
    maxLevel := u.maxLevel.getD e.maxLevel }

/-- Embeds `Envelope.trigger(startTime?)`.  Returns the scheduling trace: the
method returns immediately when no target is connected; otherwise
`now = max(startTime ?? currentTime, currentTime)`, attack/decay are floored
at 1 ms, the three levels are floored at 1e-4, and the method cancels at
`now`, sets the start level at `now`, ramps exponentially to the peak at
`now + attackTime` and to the sustain level at `now + attackTime + decayTime`. -/
def Envelope.trigger (e : Envelope) (startTime? : Option ℚ) (currentTime : ℚ) :
    List AEvent :=
  match e.param with
  | none => []
  | some p =>
    let now := max (startTime?.getD currentTime) currentTime
    let attackTime := max e.attack (1 / 1000)
    let decayTime := max e.decay (1 / 1000)
    let safeStartLevel := max e.startLevel (1 / 10000)
    let safeMaxLevel := max e.maxLevel (1 / 10000)
    let safeSustain := max e.sustain (1 / 10000)
    [AEvent.cancel p now,
     AEvent.setValue p safeStartLevel now,
     AEvent.expRamp p safeMaxLevel (now + attackTime),
     AEvent.expRamp p safeSustain (now + attackTime + decayTime)]

/-- Embeds `Envelope.triggerRelease(releaseTime?)`: records
`releaseStartTime`, floors the release duration at 1 ms, cancels at `now`,
holds the current value (read from the substrate through `paramValue` and
floored at 1e-4) and ramps exponentially down to the floored start level at
`now + release`.  Returns the mutated instance and the scheduling trace. -/
def Envelope.triggerRelease (e : Envelope) (paramValue : Nat → ℚ)
    (releaseTime? : Option ℚ) (currentTime : ℚ) : Envelope × List AEvent :=
  match e.param with
  | none => (e, [])
  | some p =>
    let now := max (releaseTime?.getD currentTime) currentTime
    let releaseDur := max e.release (1 / 1000)
    let safeStartLevel := max e.startLevel (1 / 10000)
    let currentValue := max (paramValue p) (1 / 10000)
    ({ e with releaseStartTime := now },
     [AEvent.cancel p now,
      AEvent.setValue p currentValue now,
      AEvent.expRamp p safeStartLevel (now + releaseDur)])

/-- Embeds `Envelope.getEndTime(releaseTime?)`. -/
def Envelope.getEndTime (e : Envelope) (releaseTime? : Option ℚ) : ℚ :=
  releaseTime?.getD e.releaseStartTime + e.release

/-- One call in an arbitrary client interaction with an `Envelope` instance. -/
inductive EnvCall where
  | trigger (startTime? : Option ℚ) (currentTime : ℚ)
  | triggerRelease (releaseTime? : Option ℚ) (currentTime : ℚ) (paramValue : Nat → ℚ)
  | connect (p : Nat)
  | update (u : EnvUpdate)

/-- Applies one client call to an envelope, returning the new instance state
and the emitted scheduling trace. -/
def Envelope.applyCall (e : Envelope) : EnvCall → Envelope × List AEvent
  | EnvCall.trigger st ct => (e, e.trigger st ct)
  | EnvCall.triggerRelease rt ct pv => e.triggerRelease pv rt ct
  | EnvCall.connect p => (e.connect p, [])
  | EnvCall.update u => (e.update u, [])

/-- Runs a sequence of client calls against an envelope, concatenating the
emitted scheduling traces. -/
def Envelope.run (e : Envelope) : List EnvCall → Envelope × List AEvent
  | [] => (e, [])
  | c :: cs =>
    let r := e.applyCall c
    let r2 := r.1.run cs
    (r2.1, r.2 ++ r2.2)

/-! ## Synth voice allocator (`synth.ts`) -/

/-- The `FilterType` union type. -/
inductive FilterType where
  | lowpass
  | highpass
  | bandpass
deriving DecidableEq, Repr

/-- The `EnvelopeOptions` interface: `startLevel`/`maxLevel` are optional
(the `Envelope` constructor defaults them to 0 and 1). -/
structure EnvelopeOptions where
  attack : ℚ
  decay : ℚ
  sustain : ℚ
  release : ℚ
  startLevel : Option ℚ
  maxLevel : Option ℚ
deriving DecidableEq, Repr

/-- The `FilterEnvelopeSettings` interface (`EnvelopeOptions` plus `Q`,
`cutoffFrequency`, `contour`, `filterType`). -/
structure FilterEnvelopeSettings where
  attack : ℚ
  decay : ℚ
  sustain : ℚ
  release : ℚ
  startLevel : Option ℚ
  maxLevel : Option ℚ
  Q : ℚ
  cutoffFrequency : ℚ
  contour : ℚ
  filterType : FilterType
deriving DecidableEq, Repr

/-- Value held by a frequency-valued `AudioParam` in the model: either a
literal rational written by a setter or constructor, or the frequency
returned by `noteToFrequency` for the most recently played note (represented
by its semitone exponent, see the header). -/
inductive FreqVal where
  | lit (q : ℚ)
  | note (semisFromA4 : Option Int)
deriving DecidableEq, Repr

/-- The `ActiveVoice` record: the note key, the ids of the three oscillators,
of the three per-oscillator gain params (`gainNode.gain`) and of the three
filter-frequency params (`filter.frequency`), the primary envelope pair, and
the release time captured at note-on. -/
structure Voice where
  note : String
  oscs : List Nat
  gains : List Nat
  filters : List Nat
  volumeEnvelope : Envelope
  filterEnvelope : Envelope
  releaseTime : ℚ
deriving DecidableEq, Repr

/-- The portion of the `Synth` instance state that the claims under
verification depend on.  (Oscillator slot settings, mixer channels and the
LFO are omitted: no claim reads them and none of the modelled operations
depends on them.)  `nextId` is the model's fresh-id counter for the audio
nodes/params a `playNote` allocates. -/
structure SynthState where
  volumeEnvelopeSettings : EnvelopeOptions
  filterEnvelopeSettings : FilterEnvelopeSettings
  activeVoices : List (String × Voice)
  noiseGateGain : ℚ
  masterVolumeGain : ℚ
  noiseLevelGain : ℚ
  noiseFilterFreq : FreqVal
  noiseFilterQ : ℚ
  noiseStarted : Bool
  nextId : Nat
deriving DecidableEq, Repr

/-- The `Map.get` of `activeVoices` (first entry under the key). -/
def findVoice : List (String × Voice) → String → Option Voice
  | [], _ => none
  | (k, v) :: t, s => if k = s then some v else findVoice t s

/-- The `Map.delete` of `activeVoices` (removes the entry under the key). -/
def removeVoice : List (String × Voice) → String → List (String × Voice)
  | [], _ => []
  | (k, v) :: t, s => if k = s then t else (k, v) :: removeVoice t s

/-- The `Map.set` of `activeVoices` (replaces in place, else appends). -/
def setVoice : List (String × Voice) → String → Voice → List (String × Voice)
  | [], s, v => [(s, v)]
  | (k, v') :: t, s, v => if k = s then (s, v) :: t else (k, v') :: setVoice t s v

/-- Note keys currently in the active-voice table. -/
def voiceKeys (l : List (String × Voice)) : List String :=
  l.map Prod.fst

/-- The initial `Synth` state after the constructor: default volume-envelope
settings (attack 0.01, decay 0.5, sustain 0.4, release 0.3, startLevel 0,
maxLevel 1), default filter-envelope settings (attack 0.1, decay 0.5,
sustain 2000, release 1, startLevel 200, maxLevel 10000, Q 5,
cutoffFrequency 10000, contour 1, lowpass), no active voices, noise gate
gain 0, master volume 0.5 (`settings.volume ?? 0.5`), noise level 0, noise
filter created as `createFilter('bandpass', 1000, 1)`, noise not started. -/
def initState : SynthState where
  volumeEnvelopeSettings :=
    { attack := 1/100, decay := 1/2, sustain := 2/5, release := 3/10,
      startLevel := some 0, maxLevel := some 1 }
  filterEnvelopeSettings :=
    { attack := 1/10, decay := 1/2, sustain := 2000, release := 1,
      startLevel := some 200, maxLevel := some 10000, Q := 5,
      cutoffFrequency := 10000, contour := 1, filterType := FilterType.lowpass }
  activeVoices := []
  noiseGateGain := 0
  masterVolumeGain := 1/2
  noiseLevelGain := 0
  noiseFilterFreq := FreqVal.lit 1000
  noiseFilterQ := 1
  noiseStarted := false
  nextId := 0

/-- Constructs a volume `Envelope` from the current settings, connected to a
gain param, as `new Envelope({ ...this.volumeEnvelopeSettings })` followed by
`connect(gainNode.gain)`: the constructor defaults `startLevel ?? 0` and
`maxLevel ?? 1`. -/
def mkVolEnvelope (vs : EnvelopeOptions) (p : Nat) : Envelope :=
  { attack := vs.attack, decay := vs.decay, sustain := vs.sustain,
    release := vs.release, startLevel := vs.startLevel.getD 0,
    maxLevel := vs.maxLevel.getD 1, param := some p, releaseStartTime := 0 }

/-- Constructs a filter `Envelope` from the current settings, connected to a
filter-frequency param, as in `playNote`: `startLevel ?? 200`,
`maxLevel ?? 10000`, and the max level pre-scaled by the contour,
`scaledMaxLevel = startLevel + (maxLevel - startLevel) * contour`. -/
def mkFiltEnvelope (fs : FilterEnvelopeSettings) (p : Nat) : Envelope :=
  let startLevel := fs.startLevel.getD 200
  let maxLevel := fs.maxLevel.getD 10000
  let scaledMaxLevel := startLevel + (maxLevel - startLevel) * fs.contour
  { attack := fs.attack, decay := fs.decay, sustain := fs.sustain,
    release := fs.release, startLevel := startLevel,
    maxLevel := scaledMaxLevel, param := some p, releaseStartTime := 0 }

/-- Embeds `Synth.stopNote(note | { note, stopTime })`.  `stopTime?` is the
optional stop time (`?? currentTime`); `paramValue` supplies the live
`AudioParam` values the method reads.  No-op when the key has no voice;
otherwise: trigger release on the stored envelope pair, cancel/hold/ramp each
per-oscillator gain linearly to 0 over the stored release time, schedule each
oscillator stop at `stopTime + releaseTime + 0.1`, delete the voice, and close
the noise gate when the table became empty. -/
def stopNote (s : SynthState) (noteName : String) (stopTime? : Option ℚ)
    (currentTime : ℚ) (paramValue : Nat → ℚ) : SynthState × List AEvent :=
  let st := stopTime?.getD currentTime
  match findVoice s.activeVoices noteName with
  | none => (s, [])
  | some voice =>
    let releaseTime := voice.releaseTime
    let ev1 := (voice.volumeEnvelope.triggerRelease paramValue (some st) currentTime).2
    let ev2 := (voice.filterEnvelope.triggerRelease paramValue (some st) currentTime).2
    let gainEvents := voice.gains.flatMap fun g =>
      [AEvent.cancel g st, AEvent.setValue g (paramValue g) st,
       AEvent.linRamp g 0 (st + releaseTime)]
    let releaseEnd := st + releaseTime + 1/10
    let stopEvents := voice.oscs.map fun o => AEvent.oscStop o releaseEnd
    let voices' := removeVoice s.activeVoices noteName
    ({ s with
        activeVoices := voices'
        noiseGateGain := if voices' = [] then 0 else s.noiseGateGain },
     ev1 ++ ev2 ++ gainEvents ++ stopEvents)

/-- The `ActiveVoice` record that `playNote` stores, built from the state the
voice-creation part of `playNote` starts from: fresh ids `n .. n+8` for the
three oscillators, their gain params and their filter-frequency params, the
primary envelope pair constructed from the settings now in effect, and the
volume-envelope release setting captured now. -/
def mkVoice (s0 : SynthState) (noteName : String) : Voice :=
  { note := noteName
    oscs := [s0.nextId, s0.nextId + 1, s0.nextId + 2]
    gains := [s0.nextId + 3, s0.nextId + 4, s0.nextId + 5]
    filters := [s0.nextId + 6, s0.nextId + 7, s0.nextId + 8]
    volumeEnvelope := mkVolEnvelope s0.volumeEnvelopeSettings (s0.nextId + 3)
    filterEnvelope := mkFiltEnvelope s0.filterEnvelopeSettings (s0.nextId + 6)
    releaseTime := s0.volumeEnvelopeSettings.release }

/-- The scheduling trace of the voice-creation part of `playNote` (everything
after the retrigger stop): envelope constructions, the per-oscillator loop
(slot 0 connects the primary pair; slots 1 and 2 construct and trigger their
own envelope instances from the same settings; every oscillator starts at
`startTime`), then the primary pair's triggers. -/
def playNoteEvents (s0 : SynthState) (st ct : ℚ) : List AEvent :=
  let n := s0.nextId
  let vs := s0.volumeEnvelopeSettings
  let fs := s0.filterEnvelopeSettings
  let volumeEnvelope := mkVolEnvelope vs (n + 3)
  let filterEnvelope := mkFiltEnvelope fs (n + 6)
  let volEnv1 := mkVolEnvelope vs (n + 4)
  let filtEnv1 := mkFiltEnvelope fs (n + 7)
  let volEnv2 := mkVolEnvelope vs (n + 5)
  let filtEnv2 := mkFiltEnvelope fs (n + 8)
  [AEvent.envCreatedVol volumeEnvelope, AEvent.envCreatedFilt filterEnvelope] ++
  [AEvent.oscStart n st] ++
  [AEvent.envCreatedVol volEnv1, AEvent.envCreatedFilt filtEnv1] ++
  volEnv1.trigger (some st) ct ++ filtEnv1.trigger (some st) ct ++
  [AEvent.oscStart (n + 1) st] ++
  [AEvent.envCreatedVol volEnv2, AEvent.envCreatedFilt filtEnv2] ++
  volEnv2.trigger (some st) ct ++ filtEnv2.trigger (some st) ct ++
  [AEvent.oscStart (n + 2) st] ++
  volumeEnvelope.trigger (some st) ct ++
  filterEnvelope.trigger (some st) ct

/-- State left by the voice-creation part of `playNote`: ids consumed, the
voice recorded under the note key, the noise filter retuned to the note's
frequency and the noise gate opened to 1. -/
def playNoteState (s0 : SynthState) (noteName : String) : SynthState :=
  { s0 with
      nextId := s0.nextId + 9
      activeVoices := setVoice s0.activeVoices noteName (mkVoice s0 noteName)
      noiseGateGain := 1
      noiseFilterFreq := FreqVal.note (noteToFrequency noteName).semisFromA4 }

/-- Embeds `Synth.playNote(note | { note, startTime })`.  If a voice already
exists under the key it is first stopped synchronously (with the current time
as stop time, as the plain-string `stopNote(noteName)` call does); then the
voice-creation part runs from the resulting state. -/
def playNote (s : SynthState) (noteName : String) (startTime? : Option ℚ)
    (currentTime : ℚ) (paramValue : Nat → ℚ) : SynthState × List AEvent :=
  let st := startTime?.getD currentTime
  let pre :=
    if (findVoice s.activeVoices noteName).isSome then
      stopNote s noteName none currentTime paramValue
    else (s, [])
  (playNoteState pre.1 noteName, pre.2 ++ playNoteEvents pre.1 st currentTime)

/-- Embeds `Synth.stopAll()`: `stopNote` for every key of the table (the keys
are snapshotted; each `stopNote` removes only its own key, so iterating the
snapshot matches iterating the live `Map` iterator). -/
def stopAll (s : SynthState) (currentTime : ℚ) (paramValue : Nat → ℚ) :
    SynthState × List AEvent :=
  (voiceKeys s.activeVoices).foldl
    (fun acc k =>
      let r := stopNote acc.1 k none currentTime paramValue
      (r.1, acc.2 ++ r.2))
    (s, [])

/-- Embeds `Synth.setVolume`: `masterVolume.gain.value = Math.max(0, Math.min(1, value))`. -/
def setVolume (s : SynthState) (v : ℚ) : SynthState :=
  { s with masterVolumeGain := max 0 (min 1 v) }

/-- Embeds `Synth.setNoiseLevel`: clamps into [0,1] and lazily starts the
noise source the first time the level is set above 0. -/
def setNoiseLevel (s : SynthState) (v : ℚ) : SynthState :=
  { s with
      noiseLevelGain := max 0 (min 1 v)
      noiseStarted := if v > 0 ∧ s.noiseStarted = false then true else s.noiseStarted }

/-- Embeds `Synth.setNoiseFilterFrequency`:
`noiseFilter.frequency.value = Math.max(20, Math.min(20000, value))`. -/
def setNoiseFilterFrequency (s : SynthState) (v : ℚ) : SynthState :=
  { s with noiseFilterFreq := FreqVal.lit (max 20 (min 20000 v)) }

/-- Embeds `Synth.setNoiseFilterQ`:
`noiseFilter.Q.value = Math.max(0.1, Math.min(20, value))`. -/
def setNoiseFilterQ (s : SynthState) (v : ℚ) : SynthState :=
  { s with noiseFilterQ := max (1/10) (min 20 v) }

/-- Embeds `Synth.setFilterType`. -/
def setFilterType (s : SynthState) (t : FilterType) : SynthState :=
  { s with filterEnvelopeSettings := { s.filterEnvelopeSettings with filterType := t } }

/-- The mutations of `filterEnvelopeSettings` performed by the repository's
call sites (`chat-panel.tsx` lines 73-83, `synth-panel.tsx` lines 66-91):
each field is set individually, except that a cutoff change always writes
`cutoffFrequency` and `maxLevel` together. -/
inductive FilterPatch where
  | attack (v : ℚ)
  | decay (v : ℚ)
  | sustain (v : ℚ)
  | release (v : ℚ)
  | cutoff (v : ℚ)
  | q (v : ℚ)
  | startLevel (v : ℚ)
  | contour (v : ℚ)

/-- Applies one filter-envelope settings mutation. -/
def applyFilterPatch (s : SynthState) : FilterPatch → SynthState
  | FilterPatch.attack v =>
    { s with filterEnvelopeSettings := { s.filterEnvelopeSettings with attack := v } }
  | FilterPatch.decay v =>
    { s with filterEnvelopeSettings := { s.filterEnvelopeSettings with decay := v } }
  | FilterPatch.sustain v =>
    { s with filterEnvelopeSettings := { s.filterEnvelopeSettings with sustain := v } }
  | FilterPatch.release v =>
    { s with filterEnvelopeSettings := { s.filterEnvelopeSettings with release := v } }
  | FilterPatch.cutoff v =>
    { s with filterEnvelopeSettings :=
        { s.filterEnvelopeSettings with cutoffFrequency := v, maxLevel := some v } }
  | FilterPatch.q v =>
    { s with filterEnvelopeSettings := { s.filterEnvelopeSettings with Q := v } }
  | FilterPatch.startLevel v =>
    { s with filterEnvelopeSettings :=
        { s.filterEnvelopeSettings with startLevel := some v } }
  | FilterPatch.contour v =>
    { s with filterEnvelopeSettings := { s.filterEnvelopeSettings with contour := v } }

/-- The mutations of `volumeEnvelopeSettings` performed by the repository's
call sites (`chat-panel.tsx` lines 86-89, `synth-panel.tsx` lines 124-136):
attack, decay, sustain and release are set individually. -/
inductive VolEnvPatch where
  | attack (v : ℚ)
  | decay (v : ℚ)
  | sustain (v : ℚ)
  | release (v : ℚ)

/-- Applies one volume-envelope settings mutation. -/
def applyVolEnvPatch (s : SynthState) : VolEnvPatch → SynthState
  | VolEnvPatch.attack v =>
    { s with volumeEnvelopeSettings := { s.volumeEnvelopeSettings with attack := v } }
  | VolEnvPatch.decay v =>
    { s with volumeEnvelopeSettings := { s.volumeEnvelopeSettings with decay := v } }
  | VolEnvPatch.sustain v =>
    { s with volumeEnvelopeSettings := { s.volumeEnvelopeSettings with sustain := v } }
  | VolEnvPatch.release v =>
    { s with volumeEnvelopeSettings := { s.volumeEnvelopeSettings with release := v } }

/-- One externally triggerable operation on the synth, as wired up in the
repository (note events, `stopAll`, the numeric setters, `setFilterType` and
the settings mutations of the two panels). -/
inductive Step : SynthState → SynthState → Prop where
  | play (s : SynthState) (noteName : String) (startTime? : Option ℚ)
      (currentTime : ℚ) (paramValue : Nat → ℚ) :
      Step s (playNote s noteName startTime? currentTime paramValue).1
  | stop (s : SynthState) (noteName : String) (stopTime? : Option ℚ)
      (currentTime : ℚ) (paramValue : Nat → ℚ) :
      Step s (stopNote s noteName stopTime? currentTime paramValue).1
  | stopAllVoices (s : SynthState) (currentTime : ℚ) (paramValue : Nat → ℚ) :
      Step s (stopAll s currentTime paramValue).1
  | volume (s : SynthState) (v : ℚ) : Step s (setVolume s v)
  | noiseLevel (s : SynthState) (v : ℚ) : Step s (setNoiseLevel s v)
  | noiseFilterFrequency (s : SynthState) (v : ℚ) : Step s (setNoiseFilterFrequency s v)
  | noiseFilterQ (s : SynthState) (v : ℚ) : Step s (setNoiseFilterQ s v)
  | filterType (s : SynthState) (t : FilterType) : Step s (setFilterType s t)
  | filterPatch (s : SynthState) (p : FilterPatch) : Step s (applyFilterPatch s p)
  | volEnvPatch (s : SynthState) (p : VolEnvPatch) : Step s (applyVolEnvPatch s p)

/-- States reachable from the freshly constructed synth by the operations
above. -/
inductive Reachable : SynthState → Prop where
  | init : Reachable initState
  | step {s s' : SynthState} : Reachable s → Step s s' → Reachable s'

/-- Recognises the filter-envelope creation records in a trace. -/
def isFiltCreation : AEvent → Bool
  | AEvent.envCreatedFilt _ => true
  | _ => false

/-- Inductive invariant of the synth state: the active-voice table has
pairwise-distinct note keys, the noise gate is 1 exactly when a voice is
active, and the filter-envelope `maxLevel` tracks `cutoffFrequency` (every
repository call site writes them together). -/
def SynthInv (s : SynthState) : Prop :=
  (voiceKeys s.activeVoices).Nodup ∧
  (s.noiseGateGain = 1 ↔ s.activeVoices ≠ []) ∧
  s.filterEnvelopeSettings.maxLevel = some s.filterEnvelopeSettings.cutoffFrequency

/-! ## Association-list lemmas for the active-voice table -/

theorem findVoice_setVoice_self (l : List (String × Voice)) (k : String) (v : Voice) :
    findVoice (setVoice l k v) k = some v := by
  induction l with
  | nil => simp [setVoice, findVoice]
  | cons a t ih =>
    obtain ⟨k', v'⟩ := a
    by_cases hk : k' = k
    · subst hk; simp [setVoice, findVoice]
    · simp [setVoice, findVoice, hk, ih]

theorem findVoice_eq_none_iff (l : List (String × Voice)) (k : String) :
    findVoice l k = none ↔ k ∉ voiceKeys l := by
  induction l with
  | nil => simp [findVoice, voiceKeys]
  | cons a t ih =>
    obtain ⟨k', v'⟩ := a
    by_cases hk : k' = k
    · subst hk; simp [findVoice, voiceKeys]
    · simp [findVoice, voiceKeys, hk, ih, Ne.symm hk]

theorem findVoice_isSome_iff (l : List (String × Voice)) (k : String) :
    (findVoice l k).isSome = true ↔ k ∈ voiceKeys l := by
  rw [Option.isSome_iff_ne_none, ne_eq, findVoice_eq_none_iff, not_not]

theorem voiceKeys_setVoice (l : List (String × Voice)) (k : String) (v : Voice) :
    voiceKeys (setVoice l k v) =
      if k ∈ voiceKeys l then voiceKeys l else voiceKeys l ++ [k] := by
  induction l with
  | nil => simp [setVoice, voiceKeys]
  | cons a t ih =>
    obtain ⟨k', v'⟩ := a
    by_cases hk : k' = k
    · subst hk; simp [setVoice, voiceKeys]
    · simp only [setVoice, if_neg hk, voiceKeys, List.map_cons] at ih ⊢
      rw [ih]
      by_cases hmem : k ∈ List.map Prod.fst t
      · simp [hmem, Ne.symm hk]
      · simp [hmem, Ne.symm hk]

theorem voiceKeys_removeVoice_sublist (l : List (String × Voice)) (k : String) :
    List.Sublist (voiceKeys (removeVoice l k)) (voiceKeys l) := by
  induction l with
  | nil => simp [removeVoice, voiceKeys]
  | cons a t ih =>
    obtain ⟨k', v'⟩ := a
    by_cases hk : k' = k
    · subst hk
      simp only [removeVoice, if_pos rfl, voiceKeys]
      exact List.sublist_cons_self _ _
    · simp only [removeVoice, if_neg hk, voiceKeys, List.map_cons]
      exact List.Sublist.cons₂ _ ih

theorem not_mem_voiceKeys_removeVoice (l : List (String × Voice)) (k : String)
    (h : (voiceKeys l).Nodup) : k ∉ voiceKeys (removeVoice l k) := by
  induction l with
  | nil => simp [removeVoice, voiceKeys]
  | cons a t ih =>
    obtain ⟨k', v'⟩ := a
    simp only [voiceKeys, List.map_cons, List.nodup_cons] at h
    by_cases hk : k' = k
    · subst hk
      simp only [removeVoice, if_pos rfl]
      exact h.1
    · simp only [removeVoice, if_neg hk, voiceKeys, List.map_cons, List.mem_cons]
      rintro (rfl | hmem)
      · exact hk rfl
      · exact ih h.2 hmem

theorem nodup_voiceKeys_setVoice (l : List (String × Voice)) (k : String) (v : Voice)
    (h : (voiceKeys l).Nodup) : (voiceKeys (setVoice l k v)).Nodup := by
  rw [voiceKeys_setVoice]
  by_cases hmem : k ∈ voiceKeys l
  · simpa [hmem] using h
  · simp only [hmem, if_false]
    exact h.append (List.nodup_singleton k)
      (fun a ha hk2 => hmem ((List.mem_singleton.mp hk2) ▸ ha))

theorem setVoice_ne_nil (l : List (String × Voice)) (k : String) (v : Voice) :
    setVoice l k v ≠ [] := by
  cases l with
  | nil => simp [setVoice]
  | cons a t => obtain ⟨k', v'⟩ := a; by_cases hk : k' = k <;> simp [setVoice, hk]

/-! ## Preservation lemmas for the synth operations -/

theorem stopNote_settings (s : SynthState) (n : String) (t : Option ℚ) (ct : ℚ)
    (pv : Nat → ℚ) :
    (stopNote s n t ct pv).1.volumeEnvelopeSettings = s.volumeEnvelopeSettings ∧
    (stopNote s n t ct pv).1.filterEnvelopeSettings = s.filterEnvelopeSettings ∧
    (stopNote s n t ct pv).1.nextId = s.nextId := by
  unfold stopNote
  cases findVoice s.activeVoices n <;> simp

/-- Any state property preserved by `stopNote` is preserved by the `stopAll`
fold. -/
theorem foldl_stopNote_pres (P : SynthState → Prop)
    (hP : ∀ s n t ct pv, P s → P (stopNote s n t ct pv).1)
    (ct : ℚ) (pv : Nat → ℚ) (ks : List String) :
    ∀ acc : SynthState × List AEvent, P acc.1 →
      P ((ks.foldl (fun acc k =>
            let r := stopNote acc.1 k none ct pv
            (r.1, acc.2 ++ r.2)) acc).1) := by
  induction ks with
  | nil => intro acc h; simpa using h
  | cons k t ih =>
    intro acc h
    simp only [List.foldl_cons]
    exact ih _ (hP acc.1 k none ct pv h)

theorem stopAll_settings (s : SynthState) (ct : ℚ) (pv : Nat → ℚ) :
    (stopAll s ct pv).1.volumeEnvelopeSettings = s.volumeEnvelopeSettings ∧
    (stopAll s ct pv).1.filterEnvelopeSettings = s.filterEnvelopeSettings := by
  unfold stopAll
  exact foldl_stopNote_pres
    (fun s' => s'.volumeEnvelopeSettings = s.volumeEnvelopeSettings ∧
      s'.filterEnvelopeSettings = s.filterEnvelopeSettings)
    (fun s' n t ct' pv' h => by
      have h' := stopNote_settings s' n t ct' pv'
      exact ⟨h'.1.trans h.1, h'.2.1.trans h.2⟩)
    ct pv (voiceKeys s.activeVoices) (s, []) ⟨rfl, rfl⟩

/-! ## Event-trace lemmas -/

theorem trigger_not_creation (e : Envelope) (st : Option ℚ) (ct : ℚ) :
    ∀ x ∈ e.trigger st ct, isFiltCreation x = false := by
  unfold Envelope.trigger
  cases e.param <;> simp [isFiltCreation]

theorem triggerRelease_not_creation (e : Envelope) (pv : Nat → ℚ) (rt : Option ℚ)
    (ct : ℚ) : ∀ x ∈ (e.triggerRelease pv rt ct).2, isFiltCreation x = false := by
  unfold Envelope.triggerRelease
  cases e.param <;> simp [isFiltCreation]

theorem stopNote_not_creation (s : SynthState) (n : String) (t : Option ℚ) (ct : ℚ)
    (pv : Nat → ℚ) : ∀ x ∈ (stopNote s n t ct pv).2, isFiltCreation x = false := by
  unfold stopNote
  cases hf : findVoice s.activeVoices n with
  | none => simp
  | some v =>
    intro x hx
    simp only [List.mem_append, List.mem_flatMap, List.mem_map, List.mem_cons,
      List.mem_singleton] at hx
    rcases hx with ((h1 | h2) | ⟨g, _, (rfl | rfl | rfl | h)⟩) | ⟨o, _, rfl⟩
    · exact triggerRelease_not_creation _ _ _ _ _ h1
    · exact triggerRelease_not_creation _ _ _ _ _ h2
    · rfl
    · rfl
    · rfl
    · cases h
    · rfl

theorem stopNote_releases (s : SynthState) (n : String) (t : Option ℚ) (ct : ℚ)
    (pv : Nat → ℚ) (v : Voice) (h : findVoice s.activeVoices n = some v) :
    (∀ o ∈ v.oscs, AEvent.oscStop o (t.getD ct + v.releaseTime + 1/10) ∈
       (stopNote s n t ct pv).2) ∧
    (∀ g ∈ v.gains, AEvent.linRamp g 0 (t.getD ct + v.releaseTime) ∈
       (stopNote s n t ct pv).2) := by
  simp only [stopNote, h]
  constructor
  · intro o ho
    exact List.mem_append_right _ (List.mem_map_of_mem _ ho)
  · intro g hg
    exact List.mem_append_left _ (List.mem_append_right _
      (List.mem_flatMap.mpr ⟨g, hg, by simp⟩))

theorem stopNote_activeVoices_of_found (s : SynthState) (n : String) (t : Option ℚ)
    (ct : ℚ) (pv : Nat → ℚ) (v : Voice) (h : findVoice s.activeVoices n = some v) :
    (stopNote s n t ct pv).1.activeVoices = removeVoice s.activeVoices n := by
  simp [stopNote, h]

/-- A `playNote` call, unfolded into its retrigger branch, its state part and
its trace part. -/
theorem playNote_unfold (s : SynthState) (n : String) (st : Option ℚ) (ct : ℚ)
    (pv : Nat → ℚ) :
    playNote s n st ct pv =
      (playNoteState
         (if (findVoice s.activeVoices n).isSome then (stopNote s n none ct pv).1 else s) n,
       (if (findVoice s.activeVoices n).isSome then (stopNote s n none ct pv).2 else []) ++
         playNoteEvents
           (if (findVoice s.activeVoices n).isSome then (stopNote s n none ct pv).1 else s)
           (st.getD ct) ct) := by
  unfold playNote
  by_cases h : (findVoice s.activeVoices n).isSome <;> simp [h]

theorem playNote_findVoice (s : SynthState) (n : String) (st : Option ℚ) (ct : ℚ)
    (pv : Nat → ℚ) :
    findVoice (playNote s n st ct pv).1.activeVoices n =
      some (mkVoice
        (if (findVoice s.activeVoices n).isSome then (stopNote s n none ct pv).1 else s) n) := by
  rw [playNote_unfold]
  simp only [playNoteState]
  exact findVoice_setVoice_self _ _ _

theorem playNote_count (s : SynthState) (n : String) (st : Option ℚ) (ct : ℚ)
    (pv : Nat → ℚ) (hnd : (voiceKeys s.activeVoices).Nodup) :
    (voiceKeys (playNote s n st ct pv).1.activeVoices).count n = 1 := by
  rw [playNote_unfold]
  simp only [playNoteState]
  by_cases h : (findVoice s.activeVoices n).isSome
  · obtain ⟨v, hv⟩ := Option.isSome_iff_exists.mp h
    rw [if_pos h, stopNote_activeVoices_of_found s n none ct pv v hv]
    have hnm := not_mem_voiceKeys_removeVoice s.activeVoices n hnd
    rw [voiceKeys_setVoice, if_neg hnm, List.count_append,
      List.count_eq_zero_of_not_mem hnm]
    simp
  · have hnm : n ∉ voiceKeys s.activeVoices := by
      rw [← findVoice_eq_none_iff]
      exact Option.not_isSome_iff_eq_none.mp h
    rw [if_neg h, voiceKeys_setVoice, if_neg hnm, List.count_append,
      List.count_eq_zero_of_not_mem hnm]
    simp

/-! ## The state invariant and its preservation -/

theorem synthInv_init : SynthInv initState := by
  refine ⟨?_, ?_, rfl⟩
  · simp [initState, voiceKeys]
  · simp [initState]

theorem stopNote_inv (s : SynthState) (n : String) (t : Option ℚ) (ct : ℚ)
    (pv : Nat → ℚ) (h : SynthInv s) : SynthInv (stopNote s n t ct pv).1 := by
  obtain ⟨hnd, hgate, hsync⟩ := h
  unfold stopNote
  cases hf : findVoice s.activeVoices n with
  | none => exact ⟨hnd, hgate, hsync⟩
  | some voice =>
    refine ⟨(voiceKeys_removeVoice_sublist s.activeVoices n).nodup hnd, ?_, hsync⟩
    by_cases hempty : removeVoice s.activeVoices n = []
    · simp [hempty]
    · simp only [hempty, if_neg hempty, ne_eq, not_false_eq_true, iff_true]
      have hne : s.activeVoices ≠ [] := by
        intro hnil
        exact hempty (by simp [hnil, removeVoice])
      exact hgate.mpr hne

theorem playNote_inv (s : SynthState) (n : String) (st : Option ℚ) (ct : ℚ)
    (pv : Nat → ℚ) (h : SynthInv s) : SynthInv (playNote s n st ct pv).1 := by
  unfold playNote
  have h0 : SynthInv (if (findVoice s.activeVoices n).isSome then
      stopNote s n none ct pv else (s, [])).1 := by
    split
    · exact stopNote_inv s n none ct pv h
    · exact h
  obtain ⟨hnd, hgate, hsync⟩ := h0
  exact ⟨nodup_voiceKeys_setVoice _ n _ hnd,
    by simp [playNoteState, setVoice_ne_nil], hsync⟩

theorem stopAll_inv (s : SynthState) (ct : ℚ) (pv : Nat → ℚ)
    (h : SynthInv s) : SynthInv (stopAll s ct pv).1 := by
  unfold stopAll
  exact foldl_stopNote_pres SynthInv
    (fun s' n t ct' pv' h' => stopNote_inv s' n t ct' pv' h')
    ct pv (voiceKeys s.activeVoices) (s, []) h

theorem step_inv {s s' : SynthState} (hs : Step s s') (h : SynthInv s) :
    SynthInv s' := by
  cases hs with
  | play n st ct pv => exact playNote_inv s n st ct pv h
  | stop n t ct pv => exact stopNote_inv s n t ct pv h
  | stopAllVoices ct pv => exact stopAll_inv s ct pv h
  | volume v => exact ⟨h.1, h.2.1, h.2.2⟩
  | noiseLevel v => exact ⟨h.1, h.2.1, h.2.2⟩
  | noiseFilterFrequency v => exact ⟨h.1, h.2.1, h.2.2⟩
  | noiseFilterQ v => exact ⟨h.1, h.2.1, h.2.2⟩
  | filterType t => exact ⟨h.1, h.2.1, h.2.2⟩
  | filterPatch p =>
    cases p <;> exact ⟨h.1, h.2.1, by set_option linter.unnecessarySimpa false in
      simpa [applyFilterPatch] using h.2.2⟩
  | volEnvPatch p => cases p <;> exact ⟨h.1, h.2.1, h.2.2⟩

theorem reachable_inv {s : SynthState} (hs : Reachable s) : SynthInv s := by
  induction hs with
  | init => exact synthInv_init
  | step _ hstep ih => exact step_inv hstep ih

/-! ## Generic helper lemmas for the claims -/

theorem clamp_ite (lo hi v : ℚ) (h : lo ≤ hi) :
    max lo (min hi v) = if v < lo then lo else if hi < v then hi else v := by
  rcases lt_or_le v lo with h1 | h1
  · rw [if_pos h1, min_eq_right (le_of_lt (lt_of_lt_of_le h1 h)), max_eq_left (le_of_lt h1)]
  · rw [if_neg (not_lt.mpr h1)]
    rcases lt_or_le hi v with h2 | h2
    · rw [if_pos h2, min_eq_left (le_of_lt h2), max_eq_right h]
    · rw [if_neg (not_lt.mpr h2), min_eq_right h2, max_eq_right h1]

theorem applyCall_expRamp_floor (e : Envelope) (c : EnvCall) (p : Nat) (v t : ℚ)
    (h : AEvent.expRamp p v t ∈ (e.applyCall c).2) : 1/10000 ≤ v := by
  cases c with
  | trigger st ct =>
    simp only [Envelope.applyCall] at h
    unfold Envelope.trigger at h
    split at h
    · simp at h
    · simp only [List.mem_cons, List.not_mem_nil, or_false] at h
      rcases h with h | h | h | h
      · exact AEvent.noConfusion h
      · exact AEvent.noConfusion h
      · injection h with hp hv ht; rw [hv]; exact le_max_right _ _
      · injection h with hp hv ht; rw [hv]; exact le_max_right _ _
  | triggerRelease rt ct pv =>
    simp only [Envelope.applyCall] at h
    unfold Envelope.triggerRelease at h
    split at h
    · simp at h
    · simp only [List.mem_cons, List.not_mem_nil, or_false] at h
      rcases h with h | h | h
      · exact AEvent.noConfusion h
      · exact AEvent.noConfusion h
      · injection h with hp hv ht; rw [hv]; exact le_max_right _ _
  | connect q => simp [Envelope.applyCall, Envelope.connect] at h
  | update u => simp [Envelope.applyCall, Envelope.update] at h

theorem trigger_countP (e : Envelope) (st : Option ℚ) (ct : ℚ) :
    (e.trigger st ct).countP isFiltCreation = 0 := by
  rw [List.countP_eq_zero]
  intro a ha
  simp [trigger_not_creation e st ct a ha]

theorem envCreatedFilt_not_mem_trigger (x : Envelope) (e : Envelope) (st : Option ℚ)
    (ct : ℚ) : AEvent.envCreatedFilt x ∉ e.trigger st ct := by
  intro h
  simpa [isFiltCreation] using trigger_not_creation e st ct _ h

theorem playNoteEvents_countP (s0 : SynthState) (st ct : ℚ) :
    (playNoteEvents s0 st ct).countP isFiltCreation = 3 := by
  unfold playNoteEvents
  simp [List.countP_append, List.countP_cons, isFiltCreation, trigger_countP]

theorem envCreatedFilt_mem_trigger_iff (x e : Envelope) (st : Option ℚ) (ct : ℚ) :
    (AEvent.envCreatedFilt x ∈ e.trigger st ct) ↔ False :=
  iff_false_intro (envCreatedFilt_not_mem_trigger x e st ct)

theorem playNoteEvents_filtCreation (s0 : SynthState) (st ct : ℚ) (e : Envelope)
    (he : AEvent.envCreatedFilt e ∈ playNoteEvents s0 st ct) :
    e = mkFiltEnvelope s0.filterEnvelopeSettings (s0.nextId + 6) ∨
    e = mkFiltEnvelope s0.filterEnvelopeSettings (s0.nextId + 7) ∨
    e = mkFiltEnvelope s0.filterEnvelopeSettings (s0.nextId + 8) := by
  unfold playNoteEvents at he
  simp only [List.mem_append, envCreatedFilt_mem_trigger_iff, or_false,
    List.mem_cons, List.not_mem_nil] at he
  simp at he
  tauto

theorem stopNote_volumeEnv_release (s : SynthState) (n : String) (t : Option ℚ)
    (ct : ℚ) (pv : Nat → ℚ) (v : Voice) (p : Nat)
    (h : findVoice s.activeVoices n = some v) (hp : v.volumeEnvelope.param = some p) :
    AEvent.expRamp p (max v.volumeEnvelope.startLevel (1/10000))
      (max (t.getD ct) ct + max v.volumeEnvelope.release (1/1000)) ∈
      (stopNote s n t ct pv).2 := by
  simp only [stopNote, h]
  apply List.mem_append_left
  apply List.mem_append_left
  apply List.mem_append_left
  unfold Envelope.triggerRelease
  simp only [hp]
  exact List.mem_cons_of_mem _ (List.mem_cons_of_mem _ (List.mem_cons_self _ _))

theorem stopNote_filterEnv_release (s : SynthState) (n : String) (t : Option ℚ)
    (ct : ℚ) (pv : Nat → ℚ) (v : Voice) (p : Nat)
    (h : findVoice s.activeVoices n = some v) (hp : v.filterEnvelope.param = some p) :
    AEvent.expRamp p (max v.filterEnvelope.startLevel (1/10000))
      (max (t.getD ct) ct + max v.filterEnvelope.release (1/1000)) ∈
      (stopNote s n t ct pv).2 := by
  simp only [stopNote, h]
  apply List.mem_append_left
  apply List.mem_append_left
  apply List.mem_append_right
  unfold Envelope.triggerRelease
  simp only [hp]
  exact List.mem_cons_of_mem _ (List.mem_cons_of_mem _ (List.mem_cons_self _ _))

theorem lookupSemitone_isSome_iff (t : List (String × Nat)) (s : String) :
    (lookupSemitone t s).isSome = true ↔ s ∈ t.map Prod.fst := by
  induction t with
  | nil => simp [lookupSemitone]
  | cons a t ih =>
    obtain ⟨k, val⟩ := a
    by_cases hk : k = s
    · subst hk; simp [lookupSemitone]
    · simp [lookupSemitone, hk, Ne.symm hk, ih]

theorem lookupSemitone_mem (t : List (String × Nat)) (s : String) (k : Nat)
    (h : lookupSemitone t s = some k) : s ∈ t.map Prod.fst :=
  (lookupSemitone_isSome_iff t s).mp (by rw [h]; rfl)

theorem lookupSemitone_not_mem (t : List (String × Nat)) (s : String)
    (h : lookupSemitone t s = none) : s ∉ t.map Prod.fst := by
  intro hm
  have hs := (lookupSemitone_isSome_iff t s).mpr hm
  rw [h] at hs
  exact Bool.noConfusion hs

theorem noteToFrequencyChars_fallback (l : List Char) :
    ((noteToFrequencyChars l).warned = !codeAcceptsChars l) ∧
    ((noteToFrequencyChars l).semisFromA4 = none ↔ codeAcceptsChars l = false) := by
  cases l with
  | nil => simp [noteToFrequencyChars, codeAcceptsChars]
  | cons c rest =>
    by_cases hc : isNoteLetter c
    case neg =>
      simp [noteToFrequencyChars, codeAcceptsChars, hc]
    case pos =>
      cases rest with
      | nil =>
        simp [noteToFrequencyChars, codeAcceptsChars, hc]
      | cons c2 rest2 =>
        unfold noteToFrequencyChars codeAcceptsChars
        by_cases hacc : c2 = '#' ∨ c2 = 'b'
        · have haccB : (c2 = '#' || c2 = 'b') = true := by
            rcases hacc with h | h <;> simp [h]
          by_cases hd0 : rest2 = []
          · subst hd0
            simp [hc, haccB]
          · by_cases hd1 : rest2.all Char.isDigit
            · cases hlook : lookupSemitone noteSemitoneTable
                (String.mk (c.toUpper :: [c2])) with
              | some k =>
                have hmem := lookupSemitone_mem _ _ _ hlook
                simp [hc, haccB, hd0, hd1, hlook, hmem]
              | none =>
                have hmem := lookupSemitone_not_mem _ _ hlook
                simp [hc, haccB, hd0, hd1, hlook, hmem]
            · have hd1' : rest2.all Char.isDigit = false :=
                Bool.eq_false_iff.mpr hd1
              simp [hc, haccB, hd0, hd1']
        · have haccB : (c2 = '#' || c2 = 'b') = false := by
            push_neg at hacc
            simp [hacc.1, hacc.2]
          by_cases hd1 : (c2 :: rest2).all Char.isDigit
          · cases hlook : lookupSemitone noteSemitoneTable
              (String.mk (c.toUpper :: [])) with
            | some k =>
              have hmem := lookupSemitone_mem _ _ _ hlook
              simp [hc, haccB, hd1, hlook, hmem]
            | none =>
              have hmem := lookupSemitone_not_mem _ _ hlook
              simp [hc, haccB, hd1, hlook, hmem]
          · have hd1' : (c2 :: rest2).all Char.isDigit = false :=
              Bool.eq_false_iff.mpr hd1
            simp [hc, haccB, hd1']

theorem playNote_events_of_found (s : SynthState) (n : String) (st : Option ℚ)
    (ct : ℚ) (pv : Nat → ℚ) (v : Voice) (h : findVoice s.activeVoices n = some v) :
    (playNote s n st ct pv).2 =
      (stopNote s n none ct pv).2 ++
        playNoteEvents (stopNote s n none ct pv).1 (st.getD ct) ct := by
  rw [playNote_unfold]
  have hsome : (findVoice s.activeVoices n).isSome = true := by rw [h]; rfl
  rw [if_pos hsome, if_pos hsome]

/-! ## Claim theorems -/

/-- C1: in every reachable state the active-voice table has at most one voice
per note key (its key list has no duplicates), and retriggering a note stops
the prior voice synchronously: after `playNote(n)` followed by `playNote(n)`,
exactly one voice exists under `n`, and the second call's trace contains, for
every oscillator of the first call's voice, the scheduled stop (at
`currentTime + releaseTime + 0.1`) and the linear gain fade to 0 of its gain
param — the first call's oscillators have all been released. -/
theorem c1_one_voice_per_key :
    (∀ s : SynthState, Reachable s → (voiceKeys s.activeVoices).Nodup) ∧
    (∀ (s : SynthState) (n : String) (st1 st2 : Option ℚ) (ct1 ct2 : ℚ)
       (pv1 pv2 : Nat → ℚ), Reachable s →
       ∃ v : Voice,
         findVoice (playNote s n st1 ct1 pv1).1.activeVoices n = some v ∧
         (voiceKeys (playNote (playNote s n st1 ct1 pv1).1 n st2 ct2 pv2).1.activeVoices).count n = 1 ∧
         (∀ o ∈ v.oscs, AEvent.oscStop o (ct2 + v.releaseTime + 1/10) ∈
            (playNote (playNote s n st1 ct1 pv1).1 n st2 ct2 pv2).2) ∧
         (∀ g ∈ v.gains, AEvent.linRamp g 0 (ct2 + v.releaseTime) ∈
            (playNote (playNote s n st1 ct1 pv1).1 n st2 ct2 pv2).2)) := by
  constructor
  · exact fun s hs => (reachable_inv hs).1
  · intro s n st1 st2 ct1 ct2 pv1 pv2 hs
    have reach1 : Reachable (playNote s n st1 ct1 pv1).1 :=
      Reachable.step hs (Step.play s n st1 ct1 pv1)
    have hnd1 := (reachable_inv reach1).1
    have hfind1 := playNote_findVoice s n st1 ct1 pv1
    have hev := playNote_events_of_found (playNote s n st1 ct1 pv1).1 n st2 ct2 pv2 _ hfind1
    refine ⟨_, hfind1, playNote_count _ n st2 ct2 pv2 hnd1, ?_, ?_⟩
    · intro o ho
      rw [hev]
      exact List.mem_append_left _
        ((stopNote_releases _ n none ct2 pv2 _ hfind1).1 o ho)
    · intro g hg
      rw [hev]
      exact List.mem_append_left _
        ((stopNote_releases _ n none ct2 pv2 _ hfind1).2 g hg)

/-- Witness for C1 at the initial state: double-triggering A4 from the fresh
synth leaves exactly one voice for A4 and schedules the release of all of the
first voice's oscillators. -/
theorem c1_one_voice_per_key_witness :
    (voiceKeys initState.activeVoices).Nodup ∧
    (∃ v : Voice,
      findVoice (playNote initState "A4" none 0 (fun _ => 0)).1.activeVoices "A4" = some v ∧
      (voiceKeys (playNote (playNote initState "A4" none 0 (fun _ => 0)).1 "A4" none 0
        (fun _ => 0)).1.activeVoices).count "A4" = 1 ∧
      (∀ o ∈ v.oscs, AEvent.oscStop o (0 + v.releaseTime + 1/10) ∈
        (playNote (playNote initState "A4" none 0 (fun _ => 0)).1 "A4" none 0
          (fun _ => 0)).2) ∧
      (∀ g ∈ v.gains, AEvent.linRamp g 0 (0 + v.releaseTime) ∈
        (playNote (playNote initState "A4" none 0 (fun _ => 0)).1 "A4" none 0
          (fun _ => 0)).2)) :=
  ⟨c1_one_voice_per_key.1 initState Reachable.init,
   c1_one_voice_per_key.2 initState "A4" none none 0 0 (fun _ => 0) (fun _ => 0)
     Reachable.init⟩

/-- C2: for every envelope (any settings, including attack, decay, sustain,
release, startLevel or maxLevel equal to 0) and every sequence of client
calls (`trigger`, `triggerRelease`, also `connect`/`update`), every value
passed as an exponential-ramp endpoint is at least 1e-4; in particular no
exponential ramp is ever scheduled to reach exactly 0. -/
theorem c2_expRamp_endpoints_floored (e : Envelope) (calls : List EnvCall)
    (p : Nat) (v t : ℚ) (h : AEvent.expRamp p v t ∈ (e.run calls).2) :
    1/10000 ≤ v := by
  induction calls generalizing e with
  | nil => simp [Envelope.run] at h
  | cons c cs ih =>
    simp only [Envelope.run, List.mem_append] at h
    rcases h with h | h
    · exact applyCall_expRamp_floor e c p v t h
    · exact ih (e.applyCall c).1 h

/-- Witness for C2: the all-zero envelope connected to param 0, triggered at
time 0, schedules the exponential ramp to the floored peak `max 0 1e-4`
(that is, 1e-4) at 1 ms, and the theorem bounds that endpoint. -/
theorem c2_expRamp_endpoints_floored_witness :
    AEvent.expRamp 0 (max (0:ℚ) (1/10000)) (max (0:ℚ) 0 + max (0:ℚ) (1/1000)) ∈
      (Envelope.run ⟨0, 0, 0, 0, 0, 0, some 0, 0⟩ [EnvCall.trigger (some 0) 0]).2 ∧
    (1/10000 : ℚ) ≤ max (0:ℚ) (1/10000) := by
  have hmem : AEvent.expRamp 0 (max (0:ℚ) (1/10000))
      (max (0:ℚ) 0 + max (0:ℚ) (1/1000)) ∈
      (Envelope.run ⟨0, 0, 0, 0, 0, 0, some 0, 0⟩ [EnvCall.trigger (some 0) 0]).2 := by
    show AEvent.expRamp 0 (max (0:ℚ) (1/10000)) (max (0:ℚ) 0 + max (0:ℚ) (1/1000)) ∈
      [AEvent.cancel 0 (max (0:ℚ) 0),
       AEvent.setValue 0 (max (0:ℚ) (1/10000)) (max (0:ℚ) 0),
       AEvent.expRamp 0 (max (0:ℚ) (1/10000)) (max (0:ℚ) 0 + max (0:ℚ) (1/1000)),
       AEvent.expRamp 0 (max (0:ℚ) (1/10000))
         (max (0:ℚ) 0 + max (0:ℚ) (1/1000) + max (0:ℚ) (1/1000))]
    exact List.mem_cons_of_mem _ (List.mem_cons_of_mem _ (List.mem_cons_self _ _))
  exact ⟨hmem,
    c2_expRamp_endpoints_floored ⟨0, 0, 0, 0, 0, 0, some 0, 0⟩
      [EnvCall.trigger (some 0) 0] 0 _ _ hmem⟩

/-- C5 counterexample: the claim says `setNoiseFilterFrequency` clamps into
[100, 8000] Hz, but the source clamps into [20, 20000]: at input 10000 the
stored frequency is 10000, outside [100, 8000]. -/
theorem c5_clamp_counterexample :
    (setNoiseFilterFrequency initState 10000).noiseFilterFreq = FreqVal.lit 10000 ∧
    ¬ ((10000 : ℚ) ≤ 8000) := by
  constructor
  · show FreqVal.lit (max 20 (min 20000 10000)) = FreqVal.lit 10000
    norm_num
  · norm_num

/-- C5 amended: each numeric setter clamps silently (never rejects), but into
the ranges the source uses: `setVolume` and `setNoiseLevel` into [0, 1],
`setNoiseFilterFrequency` into [20, 20000] Hz, `setNoiseFilterQ` into
[0.1, 20]. -/
theorem c5_setters_clamp (s : SynthState) (v : ℚ) :
    (setVolume s v).masterVolumeGain = (if v < 0 then 0 else if 1 < v then 1 else v) ∧
    (setNoiseLevel s v).noiseLevelGain = (if v < 0 then 0 else if 1 < v then 1 else v) ∧
    (setNoiseFilterFrequency s v).noiseFilterFreq =
      FreqVal.lit (if v < 20 then 20 else if 20000 < v then 20000 else v) ∧
    (setNoiseFilterQ s v).noiseFilterQ =
      (if v < 1/10 then 1/10 else if 20 < v then 20 else v) := by
  refine ⟨?_, ?_, ?_, ?_⟩
  · exact clamp_ite 0 1 v (by norm_num)
  · exact clamp_ite 0 1 v (by norm_num)
  · show FreqVal.lit (max 20 (min 20000 v)) = _
    rw [clamp_ite 20 20000 v (by norm_num)]
  · exact clamp_ite (1/10) 20 v (by norm_num)

/-- C4: from any reachable state, a `playNote` call creates exactly three
filter-envelope instances, and each has its max level pre-scaled by the
contour as `scaledMax = startLevel + (cutoffFrequency - startLevel) * contour`
using the filter-envelope settings in effect at that moment (the source
computes the scale from `maxLevel`, and every reachable state keeps
`maxLevel = cutoffFrequency` because all repository mutation paths write them
together); a voice already sounding when the cutoff is later changed keeps
its recorded envelopes, in particular its prior scaled max level. -/
theorem c4_contour_prescaled (s : SynthState) (n : String) (st : Option ℚ)
    (ct : ℚ) (pv : Nat → ℚ) (hs : Reachable s) :
    ((playNote s n st ct pv).2.countP isFiltCreation = 3) ∧
    (∀ e : Envelope, AEvent.envCreatedFilt e ∈ (playNote s n st ct pv).2 →
      e.maxLevel = s.filterEnvelopeSettings.startLevel.getD 200 +
        (s.filterEnvelopeSettings.cutoffFrequency -
          s.filterEnvelopeSettings.startLevel.getD 200) *
          s.filterEnvelopeSettings.contour) ∧
    (∀ (k : String) (v : Voice) (c : ℚ), findVoice s.activeVoices k = some v →
      findVoice (applyFilterPatch s (FilterPatch.cutoff c)).activeVoices k = some v) := by
  have hsync := (reachable_inv hs).2.2
  rw [playNote_unfold]
  have hfs : (if (findVoice s.activeVoices n).isSome then (stopNote s n none ct pv).1
      else s).filterEnvelopeSettings = s.filterEnvelopeSettings := by
    split
    · exact (stopNote_settings s n none ct pv).2.1
    · rfl
  refine ⟨?_, ?_, ?_⟩
  · rw [List.countP_append, playNoteEvents_countP]
    have hpre : (if (findVoice s.activeVoices n).isSome then (stopNote s n none ct pv).2
        else []).countP isFiltCreation = 0 := by
      split
      · rw [List.countP_eq_zero]
        intro a ha
        simp [stopNote_not_creation s n none ct pv a ha]
      · rfl
    rw [hpre]
  · intro e he
    rw [List.mem_append] at he
    rcases he with he | he
    · exfalso
      revert he
      split
      · intro he
        simpa [isFiltCreation] using stopNote_not_creation s n none ct pv _ he
      · intro he
        simp at he
    · have h3 := playNoteEvents_filtCreation _ (st.getD ct) ct e he
      rw [hfs] at h3
      rcases h3 with rfl | rfl | rfl <;> simp [mkFiltEnvelope, hsync]
  · intro k v c hf
    simpa [applyFilterPatch] using hf

/-- Witness for C4 at the initial state (contour 1, startLevel 200,
cutoff 10000): the three created filter envelopes carry max level
`200 + (10000 - 200) * 1`. -/
theorem c4_contour_prescaled_witness :
    ((playNote initState "A4" none 0 (fun _ => 0)).2.countP isFiltCreation = 3) ∧
    (∀ e : Envelope,
      AEvent.envCreatedFilt e ∈ (playNote initState "A4" none 0 (fun _ => 0)).2 →
      e.maxLevel = initState.filterEnvelopeSettings.startLevel.getD 200 +
        (initState.filterEnvelopeSettings.cutoffFrequency -
          initState.filterEnvelopeSettings.startLevel.getD 200) *
          initState.filterEnvelopeSettings.contour) ∧
    (∀ (k : String) (v : Voice) (c : ℚ),
      findVoice initState.activeVoices k = some v →
      findVoice (applyFilterPatch initState (FilterPatch.cutoff c)).activeVoices k =
        some v) :=
  c4_contour_prescaled initState "A4" none 0 (fun _ => 0) Reachable.init

/-- C3: the release duration `stopNote` applies comes from the voice recorded
at `playNote`: the stored `releaseTime` and the two envelope instances'
release fields equal the settings in effect at the `playNote` call; mutating
the global volume-envelope release (the `volumeRelease` patch) between
`playNote` and `stopNote` leaves the `stopNote` trace unchanged; the
per-oscillator linear gain fades end at `stopTime + release`, the oscillator
stops are scheduled at `stopTime + release + 0.1`, and the two envelope
release ramps run over `max(release, 1ms)` from the release start — all with
the release settings captured at `playNote`. -/
theorem c3_release_frozen (s : SynthState) (n : String) (st : Option ℚ) (ct : ℚ)
    (pv : Nat → ℚ) (r : ℚ) (t2 : Option ℚ) (ct2 : ℚ) (pv2 : Nat → ℚ) :
    ∃ v : Voice,
      findVoice (playNote s n st ct pv).1.activeVoices n = some v ∧
      v.releaseTime = s.volumeEnvelopeSettings.release ∧
      v.volumeEnvelope.release = s.volumeEnvelopeSettings.release ∧
      v.filterEnvelope.release = s.filterEnvelopeSettings.release ∧
      (stopNote (applyVolEnvPatch (playNote s n st ct pv).1 (VolEnvPatch.release r))
          n t2 ct2 pv2).2 =
        (stopNote (playNote s n st ct pv).1 n t2 ct2 pv2).2 ∧
      (∀ g ∈ v.gains,
        AEvent.linRamp g 0 (t2.getD ct2 + s.volumeEnvelopeSettings.release) ∈
          (stopNote (applyVolEnvPatch (playNote s n st ct pv).1 (VolEnvPatch.release r))
            n t2 ct2 pv2).2) ∧
      (∀ o ∈ v.oscs,
        AEvent.oscStop o (t2.getD ct2 + s.volumeEnvelopeSettings.release + 1/10) ∈
          (stopNote (applyVolEnvPatch (playNote s n st ct pv).1 (VolEnvPatch.release r))
            n t2 ct2 pv2).2) ∧
      (∃ p, v.volumeEnvelope.param = some p ∧
        AEvent.expRamp p (max v.volumeEnvelope.startLevel (1/10000))
          (max (t2.getD ct2) ct2 + max s.volumeEnvelopeSettings.release (1/1000)) ∈
          (stopNote (applyVolEnvPatch (playNote s n st ct pv).1 (VolEnvPatch.release r))
            n t2 ct2 pv2).2) ∧
      (∃ p, v.filterEnvelope.param = some p ∧
        AEvent.expRamp p (max v.filterEnvelope.startLevel (1/10000))
          (max (t2.getD ct2) ct2 + max s.filterEnvelopeSettings.release (1/1000)) ∈
          (stopNote (applyVolEnvPatch (playNote s n st ct pv).1 (VolEnvPatch.release r))
            n t2 ct2 pv2).2) := by
  have hvs : (if (findVoice s.activeVoices n).isSome then (stopNote s n none ct pv).1
      else s).volumeEnvelopeSettings = s.volumeEnvelopeSettings := by
    split
    · exact (stopNote_settings s n none ct pv).1
    · rfl
  have hfs : (if (findVoice s.activeVoices n).isSome then (stopNote s n none ct pv).1
      else s).filterEnvelopeSettings = s.filterEnvelopeSettings := by
    split
    · exact (stopNote_settings s n none ct pv).2.1
    · rfl
  have hfind1 := playNote_findVoice s n st ct pv
  have hfind2 : findVoice (applyVolEnvPatch (playNote s n st ct pv).1
      (VolEnvPatch.release r)).activeVoices n =
      some (mkVoice (if (findVoice s.activeVoices n).isSome then
        (stopNote s n none ct pv).1 else s) n) := by
    simpa [applyVolEnvPatch] using hfind1
  refine ⟨_, hfind1, ?_, ?_, ?_, ?_, ?_, ?_, ?_, ?_⟩
  · show (if (findVoice s.activeVoices n).isSome then (stopNote s n none ct pv).1
      else s).volumeEnvelopeSettings.release = _
    rw [hvs]
  · show (if (findVoice s.activeVoices n).isSome then (stopNote s n none ct pv).1
      else s).volumeEnvelopeSettings.release = _
    rw [hvs]
  · show (if (findVoice s.activeVoices n).isSome then (stopNote s n none ct pv).1
      else s).filterEnvelopeSettings.release = _
    rw [hfs]
  · simp only [stopNote, hfind2, hfind1]
  · intro g hg
    rw [← hvs]
    exact (stopNote_releases _ n t2 ct2 pv2 _ hfind2).2 g hg
  · intro o ho
    rw [← hvs]
    exact (stopNote_releases _ n t2 ct2 pv2 _ hfind2).1 o ho
  · refine ⟨_, rfl, ?_⟩
    rw [← hvs]
    exact stopNote_volumeEnv_release _ n t2 ct2 pv2 _ _ hfind2 rfl
  · refine ⟨_, rfl, ?_⟩
    rw [← hfs]
    exact stopNote_filterEnv_release _ n t2 ct2 pv2 _ _ hfind2 rfl

/-- Witness for C3 at the initial state: play A4 at time 0, patch the global
volume-envelope release to 7, stop at time 1; the stop trace still uses the
release 0.3 (and filter release 1) captured at the `playNote`. -/
theorem c3_release_frozen_witness :
    ∃ v : Voice,
      findVoice (playNote initState "A4" none 0 (fun _ => 0)).1.activeVoices "A4" =
        some v ∧
      v.releaseTime = initState.volumeEnvelopeSettings.release ∧
      v.volumeEnvelope.release = initState.volumeEnvelopeSettings.release ∧
      v.filterEnvelope.release = initState.filterEnvelopeSettings.release ∧
      (stopNote (applyVolEnvPatch (playNote initState "A4" none 0 (fun _ => 0)).1
          (VolEnvPatch.release 7)) "A4" none 1 (fun _ => 0)).2 =
        (stopNote (playNote initState "A4" none 0 (fun _ => 0)).1 "A4" none 1
          (fun _ => 0)).2 ∧
      (∀ g ∈ v.gains,
        AEvent.linRamp g 0 ((none : Option ℚ).getD 1 +
            initState.volumeEnvelopeSettings.release) ∈
          (stopNote (applyVolEnvPatch (playNote initState "A4" none 0 (fun _ => 0)).1
            (VolEnvPatch.release 7)) "A4" none 1 (fun _ => 0)).2) ∧
      (∀ o ∈ v.oscs,
        AEvent.oscStop o ((none : Option ℚ).getD 1 +
            initState.volumeEnvelopeSettings.release + 1/10) ∈
          (stopNote (applyVolEnvPatch (playNote initState "A4" none 0 (fun _ => 0)).1
            (VolEnvPatch.release 7)) "A4" none 1 (fun _ => 0)).2) ∧
      (∃ p, v.volumeEnvelope.param = some p ∧
        AEvent.expRamp p (max v.volumeEnvelope.startLevel (1/10000))
          (max ((none : Option ℚ).getD 1) 1 +
            max initState.volumeEnvelopeSettings.release (1/1000)) ∈
          (stopNote (applyVolEnvPatch (playNote initState "A4" none 0 (fun _ => 0)).1
            (VolEnvPatch.release 7)) "A4" none 1 (fun _ => 0)).2) ∧
      (∃ p, v.filterEnvelope.param = some p ∧
        AEvent.expRamp p (max v.filterEnvelope.startLevel (1/10000))
          (max ((none : Option ℚ).getD 1) 1 +
            max initState.filterEnvelopeSettings.release (1/1000)) ∈
          (stopNote (applyVolEnvPatch (playNote initState "A4" none 0 (fun _ => 0)).1
            (VolEnvPatch.release 7)) "A4" none 1 (fun _ => 0)).2) :=
  c3_release_frozen initState "A4" none 0 (fun _ => 0) 7 none 1 (fun _ => 0)

/-- C6: in every reachable state the noise gate's gain is 1 exactly when the
active-voice table is non-empty (initially it is 0 with no voices; `playNote`
opens it; `stopNote` closes it exactly when the table becomes empty). -/
theorem c6_noiseGate_iff_active (s : SynthState) (hs : Reachable s) :
    s.noiseGateGain = 1 ↔ s.activeVoices ≠ [] :=
  (reachable_inv hs).2.1

/-- Witness for C6 at the initial state: gate 0 and no voices. -/
theorem c6_noiseGate_iff_active_witness :
    initState.noiseGateGain = 1 ↔ initState.activeVoices ≠ [] :=
  c6_noiseGate_iff_active initState Reachable.init

/-- C7: for a connected envelope and a start time not in the past, `trigger`
schedules exactly: cancel at `startTime`, set to `max(startLevel, 1e-4)` at
`startTime`, exponential ramp to `max(maxLevel, 1e-4)` ending
`max(attack, 1ms)` later, exponential ramp to `max(sustain, 1e-4)` ending
`max(decay, 1ms)` after the attack endpoint. -/
theorem c7_trigger_schedule (e : Envelope) (p : Nat) (st ct : ℚ)
    (hp : e.param = some p) (hle : ct ≤ st) :
    e.trigger (some st) ct =
      [AEvent.cancel p st,
       AEvent.setValue p (max e.startLevel (1/10000)) st,
       AEvent.expRamp p (max e.maxLevel (1/10000)) (st + max e.attack (1/1000)),
       AEvent.expRamp p (max e.sustain (1/10000))
         (st + max e.attack (1/1000) + max e.decay (1/1000))] := by
  unfold Envelope.trigger
  rw [hp]
  simp [max_eq_left hle]

/-- Witness for C7: the all-zero envelope connected to param 7, triggered at
time 2 with current time 0. -/
theorem c7_trigger_schedule_witness :
    (Envelope.param ⟨0, 0, 0, 0, 0, 0, some 7, 0⟩ = some 7) ∧ ((0:ℚ) ≤ 2) ∧
    Envelope.trigger ⟨0, 0, 0, 0, 0, 0, some 7, 0⟩ (some 2) 0 =
      [AEvent.cancel 7 2, AEvent.setValue 7 (max 0 (1/10000)) 2,
       AEvent.expRamp 7 (max 0 (1/10000)) (2 + max 0 (1/1000)),
       AEvent.expRamp 7 (max 0 (1/10000)) (2 + max 0 (1/1000) + max 0 (1/1000))] :=
  ⟨rfl, by norm_num, c7_trigger_schedule ⟨0, 0, 0, 0, 0, 0, some 7, 0⟩ 7 2 0 rfl (by norm_num)⟩

/-- C8 counterexample: the claim says every string that is not of the form
`[A-G](#|b)?[0-9]+` yields the 440 fallback and a warning, but the source
regex accepts lower-case letters: `"c4"` is not of the claimed form, yet the
lookup computes C4's frequency `440 * 2 ^ (-9 / 12)` (about 261.63 Hz, not
440) and issues no warning. -/
theorem c8_lookup_counterexample :
    specNoteWellFormed "c4" = false ∧ (noteToFrequency "c4").warned = false ∧
    (noteToFrequency "c4").semisFromA4 = some (-9) := by decide

/-- C8 amended: the lookup never throws (it is a total function) and returns
the fixed default 440 with a warning exactly for the strings the source does
not accept — those not matching `[A-Ga-g](#|b)?[0-9]+` (letter
case-insensitive) with the normalised letter-plus-accidental among the 17
semitone-table names; accepted strings produce the equal-temperament
frequency with no warning. -/
theorem c8_lookup_fallback (s : String) :
    ((noteToFrequency s).warned = !codeAcceptsNote s) ∧
    ((noteToFrequency s).semisFromA4 = none ↔ codeAcceptsNote s = false) :=
  noteToFrequencyChars_fallback s.toList

/-- C9: the range-to-frequency mapping returns exactly `f * 4` for range 2,
`f * 2` for range 4, `f` (that is, `f * 1`) for range 8 (the `default`
branch), `f / 2` for range 16 and `f / 4` for range 32. -/
theorem c9_rangeToFrequency_table (f : ℚ) :
    rangeToFrequency f 2 = f * 4 ∧ rangeToFrequency f 4 = f * 2 ∧
    rangeToFrequency f 8 = f ∧ rangeToFrequency f 16 = f / 2 ∧
    rangeToFrequency f 32 = f / 4 :=
  ⟨rfl, rfl, rfl, rfl, rfl⟩

/-- C10: for every MIDI note 12 ≤ m ≤ 127, converting to a note name and then
looking up the frequency agrees with the direct MIDI-to-frequency conversion:
both produce `440 * 2 ^ ((m - 69) / 12)` (frequencies are represented by
their semitone exponent `m - 69`, which determines the frequency uniquely),
with no warning. -/
theorem c10_midi_roundtrip (m : Nat) (h1 : 12 ≤ m) (h2 : m ≤ 127) :
    noteToFrequency (midiToNote m) = ⟨false, some (midiToFrequency m)⟩ := by
  have key : ∀ k : Nat, k < 116 →
      noteToFrequency (midiToNote (k + 12)) =
        ⟨false, some (midiToFrequency (k + 12))⟩ := by decide
  have hm : m - 12 < 116 := by omega
  have hk := key (m - 12) hm
  rwa [Nat.sub_add_cancel h1] at hk

/-- Witness for C10 at m = 69 (A4): the round trip yields semitone exponent 0,
i.e. exactly 440 Hz. -/
theorem c10_midi_roundtrip_witness :
    12 ≤ 69 ∧ 69 ≤ 127 ∧
    noteToFrequency (midiToNote 69) = ⟨false, some (midiToFrequency 69)⟩ :=
  ⟨by norm_num, by norm_num, c10_midi_roundtrip 69 (by norm_num) (by norm_num)⟩

end SymSynth
